import Mathlib

/-!
Verification of the CinebyHub incremental synchronization engine.

This file gives a shallow embedding of the core of `cineby_scraper.py` and
`run_all.py`: the rate-limited fetch client (`TMDBClient.get`), the
incremental page walker (`fetch_incremental`), the merge/dedup step
(`dedupe` and the per-category merge in `main`), the snapshot reader
(`load_existing_rows`) and the change detector plus baseline update of
`run_all.py` (`detect_new_rows`, `run_pipeline_cycle`).

Records are modelled as an identifier cell plus an abstract payload
standing for all remaining columns; identifier cells carry Python values
(None, integers, strings) so that Python truthiness is represented
faithfully.
-/

/-- Python values that can appear in a record identifier cell: `None`
(also standing for an absent "id" key, which `dict.get` maps to `None`),
integers and strings. -/
inductive PyVal where
  | vNone : PyVal
  | vInt : Int → PyVal
  | vStr : String → PyVal
deriving DecidableEq, Repr

/-- Python truthiness of an identifier value: `None`, `0` and the empty
string are falsy, every other integer or string is truthy. -/
def PyVal.isTruthy : PyVal → Bool
  | .vNone => false
  | .vInt n => n != 0
  | .vStr s => s != ""

/-- One catalog record / spreadsheet row: the identifier cell (the value of
the `id` key of a fetched item, equally the "TMDB ID" / "Network ID"
column of a stored row) plus an abstract payload standing for every other
column. -/
structure Row where
  id : PyVal
  payload : Nat
deriving DecidableEq, Repr

/- ───────────────────────────── Fetch client ─────────────────────────────
   `TMDBClient.get` (cineby_scraper.py lines 149-169):

     for attempt in range(3):
         try:
             resp = self.session.get(url, params=params, timeout=15)
             if resp.status_code == 429:
                 wait = int(resp.headers.get("Retry-After", 5))
                 time.sleep(wait)
                 continue
             resp.raise_for_status()
             return resp.json()
         except requests.RequestException as e:
             if attempt == 2:
                 return None
             time.sleep(2 ** attempt)
     return None

   The sequence of HTTP outcomes is modelled as a stream `f : Nat → Resp`
   indexed by the number of requests issued so far. -/

/-- Outcome of one HTTP request: a 429 carrying an optional Retry-After
value, a 2xx with an abstract JSON body, a non-2xx status (which
`raise_for_status` turns into a `RequestException`), or a network error. -/
inductive Resp where
  | rateLimited : Option Nat → Resp
  | ok : Nat → Resp
  | httpError : Resp
  | netError : Resp
deriving DecidableEq, Repr

/-- Observable behaviour of one call to `TMDBClient.get`: the returned
value (`none` is the failure sentinel), the number of HTTP requests
issued, and the durations of the sleeps performed, in order. -/
structure GetResult where
  result : Option Nat
  requests : Nat
  sleeps : List Nat
deriving DecidableEq, Repr

/-- The body of the `for attempt in range(3)` loop of `TMDBClient.get`.
The first argument after the stream is the list of remaining attempt
indices (initially `[0, 1, 2]`), then the request counter and the sleeps
accumulated so far (reversed).  A 429 sleeps `Retry-After` (default 5)
and `continue`s, which in Python advances the `for` loop to the next
attempt index; an exception at `attempt == 2` returns `None`, otherwise
it sleeps `2 ^ attempt` and retries; an exhausted loop returns `None`. -/
def TMDBClient.getAux (f : Nat → Resp) : List Nat → Nat → List Nat → GetResult
  | [], k, acc => ⟨none, k, acc.reverse⟩
  | a :: rest, k, acc =>
    match f k with
    | .rateLimited ra => TMDBClient.getAux f rest (k + 1) (ra.getD 5 :: acc)
    | .ok d => ⟨some d, k + 1, acc.reverse⟩
    | .httpError =>
      if a == 2 then ⟨none, k + 1, acc.reverse⟩
      else TMDBClient.getAux f rest (k + 1) (2 ^ a :: acc)
    | .netError =>
      if a == 2 then ⟨none, k + 1, acc.reverse⟩
      else TMDBClient.getAux f rest (k + 1) (2 ^ a :: acc)

/-- `TMDBClient.get` run against a stream of HTTP outcomes. -/
def TMDBClient.get (f : Nat → Resp) : GetResult :=
  TMDBClient.getAux f [0, 1, 2] 0 []

/- ──────────────────────── Incremental page walker ────────────────────────
   `fetch_incremental` (cineby_scraper.py lines 241-282).  The remote
   descriptor is modelled as `f : Nat → Option PageData`: the response of
   `client.get` for a given page number, `none` when `get` returned the
   failure sentinel (the `if not data: break` case). -/

/-- One page response: the `results` list and the reported `total_pages`
(the `data.get("total_pages", 1)` value, default already folded in). -/
structure PageData where
  results : List Row
  total_pages : Nat
deriving DecidableEq, Repr

/-- Observable behaviour of one call to `fetch_incremental`: the records
returned and the number of page requests issued. -/
structure FetchResult where
  results : List Row
  pagesFetched : Nat
deriving DecidableEq, Repr

/-- The Python guard `if max_pages and page > max_pages: break`: under
Python truthiness `None` and `0` never break. -/
def maxPagesBreak (maxPages : Option Nat) (page : Nat) : Bool :=
  match maxPages with
  | none => false
  | some m => decide (m ≠ 0) && decide (page > m)

/-- The `while page <= total_pages` loop of `fetch_incremental`, with an
explicit fuel.  Each iteration checks the page-budget guard, issues the
request, filters the page down to records whose id is not in
`existing_ids`, appends them, and stops early when a page other than
page 1 contributed nothing new; `total_pages` is refined from each
response, capped at 500.  Since `total_pages` never exceeds 500 and the
page number strictly increases, the loop runs at most 500 iterations, so
the fuel of 501 used by `fetch_incremental` is never exhausted. -/
def fetchIncrAux (f : Nat → Option PageData) (existing_ids : List PyVal)
    (maxPages : Option Nat) : Nat → Nat → Nat → List Row → Nat → FetchResult
  | 0, _, _, acc, k => ⟨acc, k⟩
  | fuel + 1, page, totalPages, acc, k =>
    if page ≤ totalPages then
      if maxPagesBreak maxPages page then ⟨acc, k⟩
      else
        match f page with
        | none => ⟨acc, k + 1⟩
        | some d =>
          let tp := min d.total_pages 500
          let newOnPage := d.results.filter (fun r => decide (r.id ∉ existing_ids))
          let acc2 := acc ++ newOnPage
          if newOnPage.length == 0 && decide (page > 1) then ⟨acc2, k + 1⟩
          else fetchIncrAux f existing_ids maxPages fuel (page + 1) tp acc2 (k + 1)
    else ⟨acc, k⟩

/-- `fetch_incremental(client, endpoint, params, existing_ids, max_pages,
desc)`: walk the descriptor from page 1 with initial `total_pages = 1`. -/
def fetch_incremental (f : Nat → Option PageData) (existing_ids : List PyVal)
    (maxPages : Option Nat) : FetchResult :=
  fetchIncrAux f existing_ids maxPages 501 1 1 [] 0

/- ───────────────────────────── Merge and dedup ───────────────────────────
   `dedupe` (lines 289-297) and the per-category merge in `main`
   (for movies, lines 713-717):

     new_movies  = dedupe(movie_lists)
     new_mov_data = [normalize_movie(m) for m in new_movies]
     movies_data = existing_movies + [r for r in new_mov_data
                                      if r["TMDB ID"] not in ex_movie_ids]
-/

/-- The loop of `dedupe` with its `seen` set made explicit: a record is
kept when its id is truthy and not seen before; its id is then added to
`seen`.  Records whose id is falsy are dropped. -/
def dedupeAux (seen : List PyVal) : List Row → List Row
  | [] => []
  | item :: rest =>
    if item.id.isTruthy && decide (item.id ∉ seen) then
      item :: dedupeAux (item.id :: seen) rest
    else
      dedupeAux seen rest

/-- `dedupe(items, key="id")`: keep the first occurrence of each truthy
id, in input order. -/
def dedupe (items : List Row) : List Row := dedupeAux [] items

/-- The identifier part of `normalize_movie` / `normalize_tv`: the "TMDB
ID" column is `item.get("id", "")`, so an absent id becomes the empty
string and every present id is kept unchanged; the remaining columns are
abstracted into the payload. -/
def normalizeRow (item : Row) : Row :=
  ⟨if item.id = PyVal.vNone then PyVal.vStr "" else item.id, item.payload⟩

/-- The per-category merge of `main`: existing rows first, then the
normalized deduplicated fetch, minus rows whose id is already among the
ids loaded from the prior snapshot. -/
def mergeStep (existing : List Row) (existing_ids : List PyVal)
    (fetched : List Row) : List Row :=
  existing ++
    ((dedupe fetched).map normalizeRow).filter (fun r => decide (r.id ∉ existing_ids))

/- ───────────────────────────── Snapshot reader ───────────────────────────
   `load_existing_rows` (lines 207-238). -/

/-- One sheet of the store: whether the identifier column name appears in
the header row (`id_col in headers`), and the data rows. -/
structure Sheet where
  hasIdCol : Bool
  rows : List Row
deriving DecidableEq, Repr

/-- State of the persisted store as seen by `load_existing_rows`: file
missing, file present but unreadable (any exception while reading), or
present with a list of named sheets. -/
inductive StoreState where
  | missing : StoreState
  | unreadable : StoreState
  | present : List (String × Sheet) → StoreState

/-- The id set collected by `load_existing_rows`: ids of rows whose id
cell is not `None`, provided the identifier column exists; used only for
membership. -/
def sheetIds (sh : Sheet) : List PyVal :=
  if sh.hasIdCol then
    (sh.rows.filter (fun r => decide (r.id ≠ PyVal.vNone))).map Row.id
  else []

/-- `load_existing_rows(output_path, sheet_name, id_col)`: returns
`([], set())` when the file is missing, when reading raises, or when the
sheet is absent; otherwise the sheet rows and their non-None ids. -/
def load_existing_rows : StoreState → String → List Row × List PyVal
  | .missing, _ => ([], [])
  | .unreadable, _ => ([], [])
  | .present sheets, sheet_name =>
    match sheets.find? (fun p => p.1 == sheet_name) with
    | none => ([], [])
    | some p => (p.2.rows, sheetIds p.2)

/- ───────────────────── Change detector and pipeline cycle ─────────────────
   `detect_new_rows` (run_all.py lines 117-142) and `run_pipeline_cycle`
   (lines 227-292).  Row-count maps are association lists (dict keys are
   unique, but nothing below depends on that). -/

/-- Python `d.get(k, dflt)` on a count map. -/
def dictGetD (d : List (String × Nat)) (k : String) (dflt : Nat) : Nat :=
  match d.find? (fun p => p.1 == k) with
  | some p => p.2
  | none => dflt

/-- The growth verdict of `detect_new_rows`: an empty baseline reports
growth unconditionally; otherwise growth holds when some sheet of the
new counts strictly exceeds its baseline count (absent baseline entries
count as 0). -/
def detect_new_rows (old_counts new_counts : List (String × Nat)) : Bool :=
  if old_counts.isEmpty then true
  else new_counts.any (fun p => decide (dictGetD old_counts p.1 0 < p.2))

/-- The command-line flags of `run_all.py` consulted by
`run_pipeline_cycle`. -/
structure Args where
  no_scrape : Bool
  skip_lv : Bool
  skip_lv_only : Bool
  web_only : Bool
  force_lv : Bool
deriving DecidableEq, Repr

/-- Environment of one pipeline cycle: whether the scraper subprocess
succeeds, whether the source Excel file exists, the loaded baseline and
freshly counted row counts, and whether the Linkvertise subprocess
succeeds. -/
structure CycleEnv where
  scrape_ok : Bool
  excel_exists : Bool
  old_counts : List (String × Nat)
  new_counts : List (String × Nat)
  lv_ok : Bool
deriving DecidableEq, Repr

/-- Observable behaviour of one call to `run_pipeline_cycle`: the counts
written to the baseline file by `_save_row_counts` (`none` when the cycle
returned before saving), whether the scraper step ran, and the outcome of
the Linkvertise step when it ran. -/
structure CycleResult where
  savedCounts : Option (List (String × Nat))
  ranScraper : Bool
  lvOutcome : Option Bool
deriving DecidableEq, Repr

/-- The part of `run_pipeline_cycle` after the scraper step: early return
on `--skip-lv` / `--web-only` or a missing source Excel; otherwise detect
growth and, whether or not the Linkvertise generator runs or succeeds,
save the new counts via `_save_row_counts(new_counts)`. -/
def cycleAfterScrape (args : Args) (env : CycleEnv) (ranScraper : Bool) : CycleResult :=
  if args.skip_lv || args.web_only then ⟨none, ranScraper, none⟩
  else if !env.excel_exists then ⟨none, ranScraper, none⟩
  else if detect_new_rows env.old_counts env.new_counts || args.force_lv then
    ⟨some env.new_counts, ranScraper, some env.lv_ok⟩
  else
    ⟨some env.new_counts, ranScraper, none⟩

/-- `run_pipeline_cycle(args)`: run the scraper step unless disabled by a
flag, returning early (without saving counts) when it fails; then the
growth check and Linkvertise step. -/
def run_pipeline_cycle (args : Args) (env : CycleEnv) : CycleResult :=
  if !args.no_scrape && !args.web_only && !args.skip_lv_only then
    if env.scrape_ok then cycleAfterScrape args env true
    else ⟨none, true, none⟩
  else cycleAfterScrape args env false

example :
    TMDBClient.get (fun k => if k < 3 then Resp.rateLimited none else Resp.ok 7)
      = ⟨none, 3, [5, 5, 5]⟩ := by decide

example : TMDBClient.get (fun _ => Resp.httpError) = ⟨none, 3, [1, 2]⟩ := by decide

example :
    TMDBClient.get (fun k => if k = 0 then Resp.netError else Resp.ok 9)
      = ⟨some 9, 2, [1]⟩ := by decide

example :
    fetch_incremental
      (fun p => if 1 ≤ p ∧ p ≤ 5 then some ⟨[⟨PyVal.vInt p, p⟩], 5⟩ else none)
      [PyVal.vInt 3, PyVal.vInt 4, PyVal.vInt 5] none
      = ⟨[⟨PyVal.vInt 1, 1⟩, ⟨PyVal.vInt 2, 2⟩], 3⟩ := by decide

example :
    dedupe [⟨PyVal.vNone, 0⟩, ⟨PyVal.vInt 0, 1⟩, ⟨PyVal.vStr "", 2⟩,
            ⟨PyVal.vInt 5, 3⟩, ⟨PyVal.vInt 5, 4⟩]
      = [⟨PyVal.vInt 5, 3⟩] := by decide

example : detect_new_rows [] [] = true := by decide

example : detect_new_rows [("a", 3)] [("a", 3), ("b", 1)] = true := by decide

example : detect_new_rows [("a", 3)] [("a", 2)] = false := by decide

/-- Modelled from the spec (merge contract, section 4.4): the number of
unique unseen new ids of a fetched batch, written from the spec sentence
"total count equals len(existing) + len(new_unique_unseen)" — the number
of distinct ids occurring in the fetched batch that are not among the
existing ids.  This is the claim-side quantity, to be compared with the
length of the merge output computed by the code. -/
def specNewUniqueUnseen (existing_ids : List PyVal) (fetched : List Row) : Nat :=
  ((fetched.map Row.id).toFinset \ existing_ids.toFinset).card

/- ─────────────────────────── Helper lemmas ─────────────────────────── -/

theorem isTruthy_ne_vNone {x : PyVal} (h : x.isTruthy = true) : x ≠ PyVal.vNone := by
  intro hx
  rw [hx] at h
  exact Bool.false_ne_true h

theorem dedupeAux_sub (l : List Row) : ∀ (seen : List PyVal) (r : Row),
    r ∈ dedupeAux seen l → r ∈ l := by
  induction l with
  | nil => intro seen r h; exact absurd h (List.not_mem_nil r)
  | cons item rest ih =>
    intro seen r h
    unfold dedupeAux at h
    by_cases hc : (item.id.isTruthy && decide (item.id ∉ seen)) = true
    · rw [if_pos hc] at h
      rcases List.mem_cons.1 h with h1 | h2
      · exact h1 ▸ List.mem_cons_self item rest
      · exact List.mem_cons_of_mem item (ih _ r h2)
    · rw [if_neg hc] at h
      exact List.mem_cons_of_mem item (ih _ r h)

theorem dedupeAux_truthy (l : List Row) : ∀ (seen : List PyVal) (r : Row),
    r ∈ dedupeAux seen l → r.id.isTruthy = true := by
  induction l with
  | nil => intro seen r h; exact absurd h (List.not_mem_nil r)
  | cons item rest ih =>
    intro seen r h
    unfold dedupeAux at h
    by_cases hc : (item.id.isTruthy && decide (item.id ∉ seen)) = true
    · rw [if_pos hc] at h
      rcases List.mem_cons.1 h with h1 | h2
      · rw [h1]
        have hc2 : item.id.isTruthy = true ∧ item.id ∉ seen := by simpa using hc
        exact hc2.1
      · exact ih _ r h2
    · rw [if_neg hc] at h
      exact ih _ r h

theorem dedupeAux_id_not_seen (l : List Row) : ∀ (seen : List PyVal) (r : Row),
    r ∈ dedupeAux seen l → r.id ∉ seen := by
  induction l with
  | nil => intro seen r h; exact absurd h (List.not_mem_nil r)
  | cons item rest ih =>
    intro seen r h
    unfold dedupeAux at h
    by_cases hc : (item.id.isTruthy && decide (item.id ∉ seen)) = true
    · rw [if_pos hc] at h
      rcases List.mem_cons.1 h with h1 | h2
      · rw [h1]
        have hc2 : item.id.isTruthy = true ∧ item.id ∉ seen := by simpa using hc
        exact hc2.2
      · intro hmem
        exact ih _ r h2 (List.mem_cons_of_mem _ hmem)
    · rw [if_neg hc] at h
      exact ih _ r h

theorem dedupeAux_id_nodup (l : List Row) : ∀ (seen : List PyVal),
    ((dedupeAux seen l).map Row.id).Nodup := by
  induction l with
  | nil => intro seen; simp [dedupeAux]
  | cons item rest ih =>
    intro seen
    unfold dedupeAux
    by_cases hc : (item.id.isTruthy && decide (item.id ∉ seen)) = true
    · rw [if_pos hc]
      rw [List.map_cons, List.nodup_cons]
      refine ⟨?_, ih _⟩
      intro hmem
      rcases List.mem_map.1 hmem with ⟨r, hr, hrid⟩
      exact dedupeAux_id_not_seen rest _ r hr (hrid ▸ List.mem_cons_self _ _)
    · rw [if_neg hc]
      exact ih _

theorem dedupeAux_id_complete (l : List Row) : ∀ (seen : List PyVal) (x : PyVal),
    x.isTruthy = true → x ∉ seen → (∃ r ∈ l, r.id = x) →
    x ∈ (dedupeAux seen l).map Row.id := by
  induction l with
  | nil =>
    intro seen x _ _ hex
    rcases hex with ⟨r, hr, _⟩
    exact absurd hr (List.not_mem_nil r)
  | cons item rest ih =>
    intro seen x hx hxs hex
    unfold dedupeAux
    by_cases hc : (item.id.isTruthy && decide (item.id ∉ seen)) = true
    · rw [if_pos hc, List.map_cons]
      by_cases hxi : x = item.id
      · exact hxi ▸ List.mem_cons_self _ _
      · refine List.mem_cons_of_mem _ (ih (item.id :: seen) x hx ?_ ?_)
        · intro hmem
          rcases List.mem_cons.1 hmem with h1 | h2
          · exact hxi h1
          · exact hxs h2
        · rcases hex with ⟨r, hr, hrx⟩
          rcases List.mem_cons.1 hr with h1 | h2
          · exact absurd (h1 ▸ hrx).symm hxi
          · exact ⟨r, h2, hrx⟩
    · rw [if_neg hc]
      rcases hex with ⟨r, hr, hrx⟩
      rcases List.mem_cons.1 hr with h1 | h2
      · exfalso
        apply hc
        rw [Bool.and_eq_true]
        rw [h1] at hrx
        rw [hrx]
        exact ⟨hx, decide_eq_true hxs⟩
      · exact ih seen x hx hxs ⟨r, h2, hrx⟩

theorem normalizeRow_eq_of_truthy {r : Row} (h : r.id.isTruthy = true) :
    normalizeRow r = r := by
  unfold normalizeRow
  rw [if_neg (isTruthy_ne_vNone h)]

theorem map_normalizeRow_dedupe (items : List Row) :
    (dedupe items).map normalizeRow = dedupe items := by
  have h : ∀ r ∈ dedupe items, normalizeRow r = r := fun r hr =>
    normalizeRow_eq_of_truthy (dedupeAux_truthy items [] r hr)
  calc (dedupe items).map normalizeRow
      = (dedupe items).map id := List.map_congr_left h
    _ = dedupe items := List.map_id _

theorem mergeStep_eq (existing : List Row) (existing_ids : List PyVal)
    (fetched : List Row) :
    mergeStep existing existing_ids fetched
      = existing ++ (dedupe fetched).filter (fun r => decide (r.id ∉ existing_ids)) := by
  unfold mergeStep
  rw [map_normalizeRow_dedupe]

theorem maxPagesBreak_one (mp : Option Nat) : maxPagesBreak mp 1 = false := by
  unfold maxPagesBreak
  cases mp with
  | none => rfl
  | some m =>
    cases m with
    | zero => rfl
    | succ n =>
      have h : ¬ (1 > n + 1) := by omega
      simp [h]

theorem fetchIncrAux_all_known (f : Nat → Option PageData) (exIds : List PyVal)
    (mp : Option Nat) (h : ∀ p d, f p = some d → ∀ r ∈ d.results, r.id ∈ exIds) :
    ∀ (fuel page tp k : Nat),
      (fetchIncrAux f exIds mp fuel page tp [] k).results = [] := by
  intro fuel
  induction fuel with
  | zero => intro page tp k; rfl
  | succ n ih =>
    intro page tp k
    unfold fetchIncrAux
    by_cases hle : page ≤ tp
    · rw [if_pos hle]
      by_cases hbr : maxPagesBreak mp page = true
      · rw [if_pos hbr]
      · rw [if_neg hbr]
        cases hfp : f page with
        | none => rfl
        | some d =>
          have hnil : d.results.filter (fun r => decide (r.id ∉ exIds)) = [] := by
            rw [List.filter_eq_nil_iff]
            intro r hr
            simp [h page d hfp r hr]
          simp only [hnil, List.append_nil, List.length_nil]
          by_cases hp1 : page > 1
          · simp [hp1]
          · simp only [decide_eq_false hp1, Bool.and_false, Bool.false_eq_true,
              if_false]
            exact ih (page + 1) (min d.total_pages 500) (k + 1)
    · rw [if_neg hle]

/- ─────────────────────────── Claim theorems ─────────────────────────── -/

/-- C1: in incremental mode, a page after page 1 that yields zero records
with unknown ids stops the walk immediately, returning exactly the
records accumulated so far and issuing one final request; a zero-new
page 1 never stops the walk (the loop continues to page 2 with the
refined total-page count); and on a descriptor whose five remote pages
are (new, new, known, known, known), the walker issues exactly 3 page
requests and returns exactly the 2 new records of pages 1 and 2. -/
theorem c1_early_stop_rule :
    (∀ (f : Nat → Option PageData) (exIds : List PyVal) (mp : Option Nat)
        (fuel page tp : Nat) (acc : List Row) (k : Nat) (d : PageData),
        page ≤ tp → maxPagesBreak mp page = false → f page = some d →
        (∀ r ∈ d.results, r.id ∈ exIds) → 1 < page →
        fetchIncrAux f exIds mp (fuel + 1) page tp acc k = ⟨acc, k + 1⟩)
    ∧ (∀ (f : Nat → Option PageData) (exIds : List PyVal) (mp : Option Nat)
        (fuel tp : Nat) (acc : List Row) (k : Nat) (d : PageData),
        1 ≤ tp → f 1 = some d → (∀ r ∈ d.results, r.id ∈ exIds) →
        fetchIncrAux f exIds mp (fuel + 1) 1 tp acc k
          = fetchIncrAux f exIds mp fuel 2 (min d.total_pages 500) acc (k + 1))
    ∧ fetch_incremental
        (fun p => if 1 ≤ p ∧ p ≤ 5 then some ⟨[⟨PyVal.vInt p, p⟩], 5⟩ else none)
        [PyVal.vInt 3, PyVal.vInt 4, PyVal.vInt 5] none
        = ⟨[⟨PyVal.vInt 1, 1⟩, ⟨PyVal.vInt 2, 2⟩], 3⟩ := by
  refine ⟨?_, ?_, by decide⟩
  · intro f exIds mp fuel page tp acc k d hle hbr hfp hall hp1
    have hnil : d.results.filter (fun r => decide (r.id ∉ exIds)) = [] := by
      rw [List.filter_eq_nil_iff]
      intro r hr
      simp [hall r hr]
    unfold fetchIncrAux
    rw [if_pos hle, if_neg (by simp [hbr])]
    simp only [hfp, hnil, List.append_nil, List.length_nil]
    simp [hp1]
  · intro f exIds mp fuel tp acc k d hle hfp hall
    have hnil : d.results.filter (fun r => decide (r.id ∉ exIds)) = [] := by
      rw [List.filter_eq_nil_iff]
      intro r hr
      simp [hall r hr]
    conv_lhs => unfold fetchIncrAux
    rw [if_pos hle, if_neg (by simp [maxPagesBreak_one])]
    simp only [hfp, hnil, List.append_nil, List.length_nil]
    simp

/-- Witness for C1: instantiates the early-stop conjunct at a concrete
walker state on page 2 whose page is fully known. -/
theorem c1_early_stop_rule_witness :
    fetchIncrAux (fun _ => some ⟨[⟨PyVal.vInt 3, 0⟩], 5⟩) [PyVal.vInt 3] none 7 2 5
        [⟨PyVal.vInt 1, 1⟩] 1 = ⟨[⟨PyVal.vInt 1, 1⟩], 2⟩ :=
  c1_early_stop_rule.1 (fun _ => some ⟨[⟨PyVal.vInt 3, 0⟩], 5⟩) [PyVal.vInt 3] none 6 2 5
    [⟨PyVal.vInt 1, 1⟩] 1 ⟨[⟨PyVal.vInt 3, 0⟩], 5⟩ (by decide) (by decide) rfl
    (by decide) (by decide)

/-- C6: idempotent convergence of a re-run with no remote changes — a
walk over pages whose records all carry already-known ids returns no
records, and the merge of a fetched batch whose ids are all already in
the known-id set leaves the existing snapshot exactly as it was (same
records, same order). -/
theorem c6_idempotent_merge :
    (∀ (f : Nat → Option PageData) (exIds : List PyVal) (mp : Option Nat),
        (∀ p d, f p = some d → ∀ r ∈ d.results, r.id ∈ exIds) →
        (fetch_incremental f exIds mp).results = [])
    ∧ (∀ (existing : List Row) (exIds : List PyVal) (fetched : List Row),
        (∀ r ∈ fetched, r.id ∈ exIds) →
        mergeStep existing exIds fetched = existing) := by
  constructor
  · intro f exIds mp h
    exact fetchIncrAux_all_known f exIds mp h 501 1 1 0
  · intro existing exIds fetched h
    rw [mergeStep_eq]
    have hnil : (dedupe fetched).filter (fun r => decide (r.id ∉ exIds)) = [] := by
      rw [List.filter_eq_nil_iff]
      intro r hr
      simp [h r (dedupeAux_sub fetched [] r hr)]
    rw [hnil, List.append_nil]

/-- Witness for C6: a concrete all-known descriptor yields no records,
and a concrete all-known fetched batch merges to the unchanged
snapshot. -/
theorem c6_idempotent_merge_witness :
    (fetch_incremental
        (fun p => if p ≤ 3 then some ⟨[⟨PyVal.vInt 1, 0⟩], 3⟩ else none)
        [PyVal.vInt 1] none).results = []
    ∧ mergeStep [⟨PyVal.vInt 1, 0⟩] [PyVal.vInt 1] [⟨PyVal.vInt 1, 5⟩]
        = [⟨PyVal.vInt 1, 0⟩] :=
  ⟨c6_idempotent_merge.1 (fun p => if p ≤ 3 then some ⟨[⟨PyVal.vInt 1, 0⟩], 3⟩ else none)
      [PyVal.vInt 1] none
      (by
        intro p d hd
        by_cases hp : p ≤ 3
        · simp only [hp, if_true, Option.some.injEq] at hd
          subst hd
          decide
        · simp [hp] at hd),
    c6_idempotent_merge.2 [⟨PyVal.vInt 1, 0⟩] [PyVal.vInt 1] [⟨PyVal.vInt 1, 5⟩] (by decide)⟩

/-- C7: the change detector reports growth unconditionally when the
baseline is empty (even for an empty new-count map); with a nonempty
baseline, growth holds exactly when some sheet of the new counts
strictly exceeds its baseline count (absent baseline entries default to
0); and when every sheet shrank or stayed equal, growth is false. -/
theorem c7_growth_detection :
    (∀ new_counts : List (String × Nat), detect_new_rows [] new_counts = true)
    ∧ (∀ old_counts new_counts : List (String × Nat), old_counts ≠ [] →
        (detect_new_rows old_counts new_counts = true ↔
          ∃ p ∈ new_counts, dictGetD old_counts p.1 0 < p.2))
    ∧ (∀ old_counts new_counts : List (String × Nat), old_counts ≠ [] →
        (∀ p ∈ new_counts, p.2 ≤ dictGetD old_counts p.1 0) →
        detect_new_rows old_counts new_counts = false) := by
  have hne : ∀ old_counts : List (String × Nat), old_counts ≠ [] →
      ¬ old_counts.isEmpty = true := by
    intro old h
    cases old with
    | nil => exact absurd rfl h
    | cons a l => simp
  refine ⟨fun new_counts => rfl, ?_, ?_⟩
  · intro old_counts new_counts h
    unfold detect_new_rows
    rw [if_neg (hne old_counts h)]
    simp [List.any_eq_true]
  · intro old_counts new_counts h hle
    unfold detect_new_rows
    rw [if_neg (hne old_counts h)]
    rw [List.any_eq_false]
    intro p hp
    simp only [decide_eq_true_eq]
    exact Nat.not_lt.2 (hle p hp)

/-- Witness for C7: all three conjuncts applied at concrete count maps. -/
theorem c7_growth_detection_witness :
    detect_new_rows [] [] = true
    ∧ detect_new_rows [("a", 3)] [("a", 5)] = true
    ∧ detect_new_rows [("a", 3)] [("a", 2)] = false :=
  ⟨c7_growth_detection.1 [],
    (c7_growth_detection.2.1 [("a", 3)] [("a", 5)] (by decide)).2 (by decide),
    c7_growth_detection.2.2 [("a", 3)] [("a", 2)] (by decide) (by decide)⟩

/-- C8: whenever a pipeline cycle reaches the new-row check (the
Linkvertise step is not disabled by flag, the source Excel exists, and
the scraper step — when it runs at all — succeeded), the freshly counted
per-sheet row counts are saved as the next baseline regardless of the
outcome: whether or not growth was detected, whether or not the
Linkvertise step ran, and whether it succeeded or failed. -/
theorem c8_counts_always_saved (args : Args) (env : CycleEnv)
    (hskip : args.skip_lv = false) (hweb : args.web_only = false)
    (hexcel : env.excel_exists = true)
    (hscrape : args.no_scrape = false → args.skip_lv_only = false → env.scrape_ok = true) :
    (run_pipeline_cycle args env).savedCounts = some env.new_counts := by
  have hAfter : ∀ b : Bool,
      (cycleAfterScrape args env b).savedCounts = some env.new_counts := by
    intro b
    by_cases hd : (detect_new_rows env.old_counts env.new_counts || args.force_lv) = true
    · simp [cycleAfterScrape, hskip, hweb, hexcel, hd]
    · simp [cycleAfterScrape, hskip, hweb, hexcel, hd]
  unfold run_pipeline_cycle
  by_cases hns : args.no_scrape
  · simp only [hns, Bool.not_true, Bool.false_and, Bool.false_eq_true, if_false]
    exact hAfter false
  · by_cases hso : args.skip_lv_only
    · simp only [hso, Bool.not_true, Bool.and_false, Bool.false_eq_true, if_false]
      exact hAfter false
    · have hns2 : args.no_scrape = false := by simpa using hns
      have hso2 : args.skip_lv_only = false := by simpa using hso
      have hok : env.scrape_ok = true := hscrape hns2 hso2
      simp only [hns2, hso2, hweb, hok, Bool.not_false, Bool.true_and, Bool.and_true,
        if_true]
      exact hAfter true

/-- Witness for C8: a concrete cycle with no disabling flags, an existing
store, a successful scrape, no growth and a failing Linkvertise step
still saves the new counts. -/
theorem c8_counts_always_saved_witness :
    (run_pipeline_cycle ⟨false, false, false, false, false⟩
        ⟨true, true, [("a", 3)], [("a", 3)], false⟩).savedCounts = some [("a", 3)] :=
  c8_counts_always_saved ⟨false, false, false, false, false⟩
    ⟨true, true, [("a", 3)], [("a", 3)], false⟩ rfl rfl rfl (fun _ _ => rfl)

/-- C9: the snapshot reader returns the empty state (no rows, no ids)
when the store file is missing, when reading the store raises, and when
the store exists but has no sheet of the requested name — whatever the
other sheets contain. -/
theorem c9_reader_empty_state :
    (∀ sheet_name : String,
        load_existing_rows StoreState.missing sheet_name = ([], []))
    ∧ (∀ sheet_name : String,
        load_existing_rows StoreState.unreadable sheet_name = ([], []))
    ∧ (∀ (sheet_name : String) (sheets : List (String × Sheet)),
        (∀ p ∈ sheets, p.1 ≠ sheet_name) →
        load_existing_rows (StoreState.present sheets) sheet_name = ([], [])) := by
  refine ⟨fun _ => rfl, fun _ => rfl, ?_⟩
  intro sheet_name sheets h
  have hf : sheets.find? (fun p => p.1 == sheet_name) = none := by
    rw [List.find?_eq_none]
    intro x hx
    simpa using h x hx
  simp only [load_existing_rows, hf]

/-- Witness for C9: a store holding only a movies sheet yields the empty
state for the TV sheet. -/
theorem c9_reader_empty_state_witness :
    load_existing_rows
        (StoreState.present [("Movies", ⟨true, [⟨PyVal.vInt 1, 0⟩]⟩)]) "TV Shows"
      = ([], []) :=
  c9_reader_empty_state.2.2 "TV Shows" [("Movies", ⟨true, [⟨PyVal.vInt 1, 0⟩]⟩)]
    (by decide)

/-- C10: `dedupe` silently drops every record whose id cell is falsy
(`None` / absent, `0`, or the empty string): every record surviving
`dedupe` has a truthy id, a falsy-id input record never appears in the
output, and consequently no falsy-id record ever enters the merged
snapshot of a first full-refresh run (empty prior snapshot). -/
theorem c10_dedupe_drops_falsy :
    (∀ (items : List Row) (r : Row), r ∈ dedupe items → r.id.isTruthy = true)
    ∧ (∀ (items : List Row) (r : Row), r ∈ items → r.id.isTruthy = false →
        r ∉ dedupe items)
    ∧ (∀ (exIds : List PyVal) (items : List Row) (r : Row),
        r ∈ mergeStep [] exIds items → r.id.isTruthy = true) := by
  refine ⟨fun items r hr => dedupeAux_truthy items [] r hr, ?_, ?_⟩
  · intro items r _ hf hmem
    exact absurd (dedupeAux_truthy items [] r hmem) (by simp [hf])
  · intro exIds items r hr
    rw [mergeStep_eq, List.nil_append] at hr
    exact dedupeAux_truthy items [] r (List.mem_filter.1 hr).1

/-- Witness for C10: the record with id `0` from the input never appears
in the deduplicated output. -/
theorem c10_dedupe_drops_falsy_witness :
    (⟨PyVal.vInt 0, 7⟩ : Row) ∉ dedupe [⟨PyVal.vInt 0, 7⟩] :=
  c10_dedupe_drops_falsy.2.1 [⟨PyVal.vInt 0, 7⟩] ⟨PyVal.vInt 0, 7⟩ (by decide) (by decide)

/-- C2 counterexample: the claim says a 429 response is retried without
consuming a retry-count slot, indefinitely.  On the code, `continue`
advances the `for attempt in range(3)` loop, so three consecutive 429
responses exhaust the loop: the client gives up after exactly 3 requests
(sleeping the default 5 s each time) and returns the failure sentinel,
even though the very next request would have succeeded. -/
theorem c2_rate_limit_counterexample :
    TMDBClient.get (fun k => if k < 3 then Resp.rateLimited none else Resp.ok 7)
      = ⟨none, 3, [5, 5, 5]⟩
    ∧ (fun k => if k < 3 then Resp.rateLimited none else Resp.ok 7) 3 = Resp.ok 7 := by
  constructor
  · decide
  · rfl

/-- C2 amended: on HTTP 429 the client sleeps the server-provided wait
(default 5 s when absent) and reissues the same request, but each 429
consumes one of the 3 attempt slots of the `for` loop; after three
consecutive 429 responses `get` returns the failure sentinel. -/
theorem c2_rate_limit_amended :
    (∀ (f : Nat → Resp) (a : Nat) (rest : List Nat) (k : Nat) (acc : List Nat)
        (ra : Option Nat),
        f k = Resp.rateLimited ra →
        TMDBClient.getAux f (a :: rest) k acc
          = TMDBClient.getAux f rest (k + 1) (ra.getD 5 :: acc))
    ∧ (∀ (f : Nat → Resp) (w0 w1 w2 : Option Nat),
        f 0 = Resp.rateLimited w0 → f 1 = Resp.rateLimited w1 →
        f 2 = Resp.rateLimited w2 →
        TMDBClient.get f = ⟨none, 3, [w0.getD 5, w1.getD 5, w2.getD 5]⟩) := by
  constructor
  · intro f a rest k acc ra h
    conv_lhs => unfold TMDBClient.getAux
    rw [h]
  · intro f w0 w1 w2 h0 h1 h2
    unfold TMDBClient.get
    unfold TMDBClient.getAux
    rw [h0]
    unfold TMDBClient.getAux
    rw [h1]
    unfold TMDBClient.getAux
    rw [h2]
    unfold TMDBClient.getAux
    simp

/-- Witness for C2 amended: a stream answering 429 with Retry-After 2 on
every request. -/
theorem c2_rate_limit_amended_witness :
    TMDBClient.getAux (fun _ => Resp.rateLimited (some 2)) [0, 1, 2] 0 []
        = TMDBClient.getAux (fun _ => Resp.rateLimited (some 2)) [1, 2] 1 [2]
    ∧ TMDBClient.get (fun _ => Resp.rateLimited (some 2)) = ⟨none, 3, [2, 2, 2]⟩ :=
  ⟨c2_rate_limit_amended.1 (fun _ => Resp.rateLimited (some 2)) 0 [1, 2] 0 [] (some 2) rfl,
    c2_rate_limit_amended.2 (fun _ => Resp.rateLimited (some 2)) (some 2) (some 2)
      (some 2) rfl rfl rfl⟩

/-- C3 counterexample: the claim says failed attempts back off 1 s, 2 s,
4 s between attempts.  On the code the third attempt returns the sentinel
immediately (`if attempt == 2: return None`), so an all-errors stream
sleeps exactly 1 s and 2 s — a 4 s sleep never happens. -/
theorem c3_backoff_counterexample :
    TMDBClient.get (fun _ => Resp.httpError) = ⟨none, 3, [1, 2]⟩
    ∧ (TMDBClient.get (fun _ => Resp.httpError)).sleeps ≠ [1, 2, 4] := by
  constructor
  · decide
  · decide

/-- C3 amended: on non-429 failures (network error or non-2xx status) the
client retries up to 3 total attempts with exponential backoff sleeps of
1 s then 2 s between consecutive attempts, returning the value of the
first successful attempt, and after the third failed attempt returns the
failure sentinel immediately (no further sleep) instead of raising. -/
theorem c3_backoff_amended :
    (∀ f : Nat → Resp,
        (f 0 = Resp.httpError ∨ f 0 = Resp.netError) →
        (f 1 = Resp.httpError ∨ f 1 = Resp.netError) →
        (f 2 = Resp.httpError ∨ f 2 = Resp.netError) →
        TMDBClient.get f = ⟨none, 3, [1, 2]⟩)
    ∧ (∀ (f : Nat → Resp) (d : Nat),
        (f 0 = Resp.httpError ∨ f 0 = Resp.netError) → f 1 = Resp.ok d →
        TMDBClient.get f = ⟨some d, 2, [1]⟩)
    ∧ (∀ (f : Nat → Resp) (d : Nat),
        (f 0 = Resp.httpError ∨ f 0 = Resp.netError) →
        (f 1 = Resp.httpError ∨ f 1 = Resp.netError) → f 2 = Resp.ok d →
        TMDBClient.get f = ⟨some d, 3, [1, 2]⟩) := by
  refine ⟨?_, ?_, ?_⟩
  · intro f h0 h1 h2
    rcases h0 with h0 | h0 <;> rcases h1 with h1 | h1 <;> rcases h2 with h2 | h2 <;>
      simp [TMDBClient.get, TMDBClient.getAux, h0, h1, h2]
  · intro f d h0 h1
    rcases h0 with h0 | h0 <;>
      simp [TMDBClient.get, TMDBClient.getAux, h0, h1]
  · intro f d h0 h1 h2
    rcases h0 with h0 | h0 <;> rcases h1 with h1 | h1 <;>
      simp [TMDBClient.get, TMDBClient.getAux, h0, h1, h2]

/-- Witness for C3 amended: an all-network-errors stream, and a stream
that fails once and then succeeds. -/
theorem c3_backoff_amended_witness :
    TMDBClient.get (fun _ => Resp.netError) = ⟨none, 3, [1, 2]⟩
    ∧ TMDBClient.get (fun k => if k = 0 then Resp.httpError else Resp.ok 9)
        = ⟨some 9, 2, [1]⟩ :=
  ⟨c3_backoff_amended.1 (fun _ => Resp.netError) (Or.inr rfl) (Or.inr rfl) (Or.inr rfl),
    c3_backoff_amended.2.1 (fun k => if k = 0 then Resp.httpError else Resp.ok 9) 9
      (Or.inl rfl) rfl⟩

/-- C4 counterexample: the claim says the merge keeps the first
occurrence of every fetched id and that the output size is
`len(existing) + number of unique unseen new ids`.  On the code, a record
whose id is `0` (a falsy but perfectly well-formed id) is dropped by
`dedupe`, so with an empty prior snapshot the merge of a one-record batch
with id `0` is empty, while the batch has one unique unseen id. -/
theorem c4_merge_counterexample :
    mergeStep [] [] [⟨PyVal.vInt 0, 7⟩] = []
    ∧ specNewUniqueUnseen [] [⟨PyVal.vInt 0, 7⟩] = 1
    ∧ (mergeStep [] [] [⟨PyVal.vInt 0, 7⟩]).length
        ≠ ([] : List Row).length + specNewUniqueUnseen [] [⟨PyVal.vInt 0, 7⟩] := by
  refine ⟨rfl, ?_, ?_⟩
  · decide
  · decide

/-- C4 amended: restricted to fetched batches whose records all carry a
truthy id (the falsy-id degenerate case is settled separately), the merge
is the existing records, unmodified and in order, followed by the
first-occurrence-deduplicated fetch minus records whose id is already
among the existing ids, in first-seen order; every output record is an
existing record or an unseen fetched one; and the output length is
`len(existing)` plus the number of distinct fetched ids not among the
existing ids. -/
theorem c4_merge_amended (existing : List Row) (exIds : List PyVal)
    (fetched : List Row) (h : ∀ r ∈ fetched, r.id.isTruthy = true) :
    mergeStep existing exIds fetched
        = existing ++ (dedupe fetched).filter (fun r => decide (r.id ∉ exIds))
    ∧ (∀ r ∈ mergeStep existing exIds fetched,
        r ∈ existing ∨ (r ∈ fetched ∧ r.id ∉ exIds))
    ∧ (mergeStep existing exIds fetched).length
        = existing.length + specNewUniqueUnseen exIds fetched := by
  refine ⟨mergeStep_eq existing exIds fetched, ?_, ?_⟩
  · intro r hr
    rw [mergeStep_eq] at hr
    rcases List.mem_append.1 hr with h1 | h2
    · exact Or.inl h1
    · have h3 := List.mem_filter.1 h2
      exact Or.inr ⟨dedupeAux_sub fetched [] r h3.1, of_decide_eq_true h3.2⟩
  · have hnd : (((dedupe fetched).filter
        (fun r => decide (r.id ∉ exIds))).map Row.id).Nodup :=
      List.Nodup.sublist (List.Sublist.map Row.id (List.filter_sublist _))
        (dedupeAux_id_nodup fetched [])
    have hmem : ∀ x : PyVal,
        x ∈ ((dedupe fetched).filter (fun r => decide (r.id ∉ exIds))).map Row.id ↔
          (x ∈ fetched.map Row.id ∧ x ∉ exIds) := by
      intro x
      constructor
      · intro hx
        rcases List.mem_map.1 hx with ⟨r, hrf, hrx⟩
        have h3 := List.mem_filter.1 hrf
        refine ⟨List.mem_map.2 ⟨r, dedupeAux_sub fetched [] r h3.1, hrx⟩, ?_⟩
        rw [← hrx]
        exact of_decide_eq_true h3.2
      · intro hx
        rcases List.mem_map.1 hx.1 with ⟨r, hrf, hrx⟩
        have htr : x.isTruthy = true := by rw [← hrx]; exact h r hrf
        have hxin : x ∈ (dedupe fetched).map Row.id :=
          dedupeAux_id_complete fetched [] x htr (List.not_mem_nil x) ⟨r, hrf, hrx⟩
        rcases List.mem_map.1 hxin with ⟨r2, hr2, hr2x⟩
        refine List.mem_map.2 ⟨r2, List.mem_filter.2 ⟨hr2, ?_⟩, hr2x⟩
        exact decide_eq_true (by rw [hr2x]; exact hx.2)
    rw [mergeStep_eq, List.length_append]
    congr 1
    calc ((dedupe fetched).filter (fun r => decide (r.id ∉ exIds))).length
        = (((dedupe fetched).filter (fun r => decide (r.id ∉ exIds))).map Row.id).length :=
          (List.length_map _ _).symm
      _ = (((dedupe fetched).filter (fun r => decide (r.id ∉ exIds))).map Row.id).toFinset.card :=
          (List.toFinset_card_of_nodup hnd).symm
      _ = ((fetched.map Row.id).toFinset \ exIds.toFinset).card := by
          congr 1
          ext x
          simp only [List.mem_toFinset, Finset.mem_sdiff]
          exact hmem x
      _ = specNewUniqueUnseen exIds fetched := rfl

/-- Witness for C4 amended: a truthy-id batch with an in-batch duplicate
and one already-known id. -/
theorem c4_merge_amended_witness :
    mergeStep [⟨PyVal.vInt 1, 0⟩] [PyVal.vInt 1]
        [⟨PyVal.vInt 2, 5⟩, ⟨PyVal.vInt 2, 6⟩, ⟨PyVal.vInt 1, 7⟩]
      = [⟨PyVal.vInt 1, 0⟩] ++
          (dedupe [⟨PyVal.vInt 2, 5⟩, ⟨PyVal.vInt 2, 6⟩, ⟨PyVal.vInt 1, 7⟩]).filter
            (fun r => decide (r.id ∉ [PyVal.vInt 1]))
    ∧ (mergeStep [⟨PyVal.vInt 1, 0⟩] [PyVal.vInt 1]
        [⟨PyVal.vInt 2, 5⟩, ⟨PyVal.vInt 2, 6⟩, ⟨PyVal.vInt 1, 7⟩]).length
      = ([⟨PyVal.vInt 1, 0⟩] : List Row).length
          + specNewUniqueUnseen [PyVal.vInt 1]
              [⟨PyVal.vInt 2, 5⟩, ⟨PyVal.vInt 2, 6⟩, ⟨PyVal.vInt 1, 7⟩] :=
  ⟨(c4_merge_amended [⟨PyVal.vInt 1, 0⟩] [PyVal.vInt 1]
      [⟨PyVal.vInt 2, 5⟩, ⟨PyVal.vInt 2, 6⟩, ⟨PyVal.vInt 1, 7⟩] (by decide)).1,
    (c4_merge_amended [⟨PyVal.vInt 1, 0⟩] [PyVal.vInt 1]
      [⟨PyVal.vInt 2, 5⟩, ⟨PyVal.vInt 2, 6⟩, ⟨PyVal.vInt 1, 7⟩] (by decide)).2.2⟩

/-- C5: the per-snapshot id-uniqueness invariant is preserved by a
synchronization run — if no two records of the prior snapshot share an
id and the known-id set contains every non-None id of the prior snapshot
(as the reader guarantees whenever the identifier column is present,
which is the second conjunct), then no two records of the merged
snapshot share an id, for any fetched batch whatsoever. -/
theorem c5_snapshot_id_unique :
    (∀ (existing : List Row) (exIds : List PyVal) (fetched : List Row),
        (∀ r ∈ existing, r.id ≠ PyVal.vNone → r.id ∈ exIds) →
        (existing.map Row.id).Nodup →
        ((mergeStep existing exIds fetched).map Row.id).Nodup)
    ∧ (∀ sh : Sheet, sh.hasIdCol = true →
        ∀ r ∈ sh.rows, r.id ≠ PyVal.vNone → r.id ∈ sheetIds sh) := by
  constructor
  · intro existing exIds fetched hex hnd
    rw [mergeStep_eq, List.map_append]
    refine List.Nodup.append hnd ?_ ?_
    · exact List.Nodup.sublist (List.Sublist.map Row.id (List.filter_sublist _))
        (dedupeAux_id_nodup fetched [])
    · intro x hx1 hx2
      rcases List.mem_map.1 hx2 with ⟨r, hrf, hrx⟩
      have h3 := List.mem_filter.1 hrf
      have htr : r.id.isTruthy = true := dedupeAux_truthy fetched [] r h3.1
      have hnotex : r.id ∉ exIds := of_decide_eq_true h3.2
      rcases List.mem_map.1 hx1 with ⟨r0, hr0, hr0x⟩
      have hxne : x ≠ PyVal.vNone := by rw [← hrx]; exact isTruthy_ne_vNone htr
      have hxex : x ∈ exIds := by
        have h4 := hex r0 hr0 (by rw [hr0x]; exact hxne)
        rw [← hr0x]
        exact h4
      exact hnotex (by rw [hrx]; exact hxex)
  · intro sh hcol r hr hne
    unfold sheetIds
    rw [if_pos hcol]
    exact List.mem_map.2 ⟨r, List.mem_filter.2 ⟨hr, decide_eq_true hne⟩, rfl⟩

/-- Witness for C5: a prior snapshot with one record, its loaded id set,
and a fetched batch repeating that id plus a fresh one. -/
theorem c5_snapshot_id_unique_witness :
    ((mergeStep [⟨PyVal.vInt 1, 0⟩] [PyVal.vInt 1]
        [⟨PyVal.vInt 1, 9⟩, ⟨PyVal.vInt 2, 9⟩]).map Row.id).Nodup :=
  c5_snapshot_id_unique.1 [⟨PyVal.vInt 1, 0⟩] [PyVal.vInt 1]
    [⟨PyVal.vInt 1, 9⟩, ⟨PyVal.vInt 2, 9⟩] (by decide) (by decide)
